import Mathlib

/-!
Verification of the nightmare module-file parser.

The development shallowly embeds the parsing pipeline of src/lib.rs:
the custom integer-literal grammar, the charset / entry-name / dropbox
auxiliary readers, and the top-level module state machine.  Files are
modelled as an association list from path to decoded lines; machine
integers are natural numbers with explicit bounds where overflow
matters; code that can fail returns an Except or, where the original
can also abort abnormally, a three-way result type.
-/

set_option maxRecDepth 10000

/-- Decidable equality of fallible results, for evaluating the parser on
concrete inputs. -/
instance exceptDecEq {ε α : Type} [DecidableEq ε] [DecidableEq α] : DecidableEq (Except ε α) :=
  fun a b =>
    match a, b with
    | .ok x, .ok y => if h : x = y then isTrue (by rw [h]) else isFalse (by simp [h])
    | .error x, .error y => if h : x = y then isTrue (by rw [h]) else isFalse (by simp [h])
    | .ok _, .error _ => isFalse (by simp)
    | .error _, .ok _ => isFalse (by simp)

namespace Nightmare

/-- Characters of one text line or of a path, as decoded from a file. -/
abbrev Str := List Char

/-- Whitespace test used when trimming a line, as in the trim calls of the source. -/
def isWS (c : Char) : Bool :=
  c = ' ' || c = '\t' || c = '\n' || c = '\r' || c = '\x0b' || c = '\x0c'

/-- Remove leading and trailing whitespace from a line. -/
def trim (s : Str) : Str :=
  (((s.dropWhile isWS).reverse).dropWhile isWS).reverse

/-- Split a line at every occurrence of the separator, keeping empty parts.
This embeds the split call of the charset reader. -/
def splitChar (sep : Char) : Str → List Str
  | [] => [[]]
  | c :: rest =>
    match splitChar sep rest with
    | [] => [[]]
    | p :: ps => if c = sep then [] :: p :: ps else (c :: p) :: ps

/-- Split a line at the first occurrence of the separator into at most two
parts.  This embeds the splitn call of the dropbox-entry reader. -/
def splitn2 (sep : Char) : Str → List Str
  | [] => [[]]
  | c :: rest =>
    if c = sep then [[], rest]
    else
      match splitn2 sep rest with
      | [] => [[c]]
      | p :: ps => (c :: p) :: ps

/-- The failure kinds of unsigned radix parsing in the standard library of the
source language. -/
inductive ParseIntErrorKind where
  | empty
  | invalidDigit
  | posOverflow
  | negOverflow
  deriving DecidableEq

/-- Value of one digit character under a given radix, as in the standard
to-digit conversion: decimal digits, then letters starting at ten. -/
def char_to_digit (c : Char) (radix : Nat) : Option Nat :=
  let raw : Option Nat :=
    if '0' ≤ c ∧ c ≤ '9' then some (c.toNat - '0'.toNat)
    else if 'a' ≤ c ∧ c ≤ 'z' then some (c.toNat - 'a'.toNat + 10)
    else if 'A' ≤ c ∧ c ≤ 'Z' then some (c.toNat - 'A'.toNat + 10)
    else none
  match raw with
  | some d => if d < radix then some d else none
  | none => none

/-- Digit-accumulation loop of unsigned radix parsing.  In the positive mode
the accumulator must stay below two to the thirty-second power; in the
negative mode (a leading minus sign on an unsigned type) any nonzero digit
underflows. -/
def radix_go (radix : Nat) (pos : Bool) : Nat → Str → Except ParseIntErrorKind Nat
  | acc, [] => .ok acc
  | acc, c :: rest =>
    match char_to_digit c radix with
    | none => .error .invalidDigit
    | some d =>
      if pos then
        if acc * radix + d < 2 ^ 32 then radix_go radix pos (acc * radix + d) rest
        else .error .posOverflow
      else
        if d = 0 then radix_go radix pos acc rest else .error .negOverflow

/-- Unsigned 32-bit radix parsing: an optional sign followed by at least one
digit of the radix. -/
def from_str_radix (radix : Nat) (s : Str) : Except ParseIntErrorKind Nat :=
  match s with
  | [] => .error .empty
  | c :: rest =>
    if c = '+' then
      if rest.isEmpty then .error .empty else radix_go radix true 0 rest
    else if c = '-' then
      if rest.isEmpty then .error .empty else radix_go radix false 0 rest
    else radix_go radix true 0 (c :: rest)

/-- The error type of the parser, embedding the error enumeration of the
source.  The Located constructor attaches a file path and a 1-based line
number to an inner error. -/
inductive Error where
  | Located (filename : Str) (line : Nat) (source : Error)
  | InvalidModuleVersion
  | InvalidComponentKind
  | InvalidCharset
  | TooManyComponentEntries
  | UnexpectedEof
  | Io
  | ParseInt (kind : ParseIntErrorKind)
  deriving DecidableEq

/-- The integer-literal grammar shared by all numeric fields: a lone zero is
zero, a 0x prefix selects base-16, any other leading zero selects base-8 for
the remainder, and everything else is base-10. -/
def parse_int : Str → Except Error Nat
  | ['0'] => .ok 0
  | '0' :: 'x' :: rest => (from_str_radix 16 rest).mapError Error.ParseInt
  | '0' :: rest => (from_str_radix 8 rest).mapError Error.ParseInt
  | s => (from_str_radix 10 s).mapError Error.ParseInt

/-- Display formats for numeric components. -/
inductive NumberFormat where
  | Hex
  | Dec
  | DecSigned
  deriving DecidableEq

/-- Interpretation kinds of a component. -/
inductive ComponentKind where
  | Text
  | HexArray
  | Number (format : NumberFormat)
  | Dropbox (format : NumberFormat) (entries : List (Nat × Str))
  deriving DecidableEq

/-- One named field of an entry. -/
structure Component where
  description : Str
  offset : Nat
  length : Nat
  kind : ComponentKind
  deriving DecidableEq

/-- The parsed module, with the same defaults as the derived Default instance
of the source. -/
structure Module where
  description : Str := []
  root_offset : Nat := 0
  entry_count : Nat := 0
  entry_length : Nat := 0
  entry_names : Option (List Str) := none
  charset : Option (List (Nat × Char)) := none
  components : List Component := []
  deriving DecidableEq

/-- A filesystem: the files the parser may open, each a path paired with its
decoded lines. -/
abbrev Fs := List (Str × List Str)

/-- Look a path up in the filesystem. -/
def fs_lookup : Fs → Str → Option (List Str)
  | [], _ => none
  | (n, ls) :: rest, name => if n = name then some ls else fs_lookup rest name

/-- The kinds of abnormal termination the source can hit: unwrapping an empty
option, and indexing past the end of a split. -/
inductive CrashKind where
  | unwrapNone
  | indexOutOfBounds
  deriving DecidableEq

/-- Result of running code that can return a value, return a structured
error, or abort abnormally. -/
inductive RRes (α : Type) where
  | ok (value : α)
  | err (e : Error)
  | crash (k : CrashKind)
  deriving DecidableEq

/-- Join a parent directory and a file name. -/
def path_join (parent name : Str) : Str :=
  if parent.isEmpty then name else parent ++ '/' :: name

/-- Parent directory of a path: everything before the last slash, or the
empty path when there is none. -/
def path_parent (p : Str) : Str :=
  if '/' ∈ p then (((p.reverse).dropWhile (fun c => c ≠ '/')).drop 1).reverse else []

/-- Resolve an auxiliary file name against the parent directory; the literal
name NULL means that no file is referenced. -/
def get_full_filename (parent_dir : Str) (filename : Str) : Option Str :=
  if filename = "NULL".data then none else some (path_join parent_dir filename)

/-- The entry-name reader: every line of the file, verbatim, or none when no
file is referenced. -/
def read_module_entries (fs : Fs) : Option Str → Except Error (Option (List Str))
  | none => .ok none
  | some filename =>
    match fs_lookup fs filename with
    | none => .error .Io
    | some lines => .ok (some lines)

/-- Ordered-map insertion, keyed by byte value, replacing an existing
binding: the behaviour of the map used by the charset reader. -/
def btreeInsert (key : Nat) (val : Char) : List (Nat × Char) → List (Nat × Char)
  | [] => [(key, val)]
  | (k, v) :: rest =>
    if key < k then (key, val) :: (k, v) :: rest
    else if key = k then (key, val) :: rest
    else (k, v) :: btreeInsert key val rest

/-- Per-line loop of the charset reader: split the trimmed line on every
equals sign, trim the parts, require exactly two of them, parse the left part
in base-16, truncate it to a byte, and map it to the first character of the
right part (the null character when the right part is empty). -/
def charset_go (filename : Str) : Nat → List (Nat × Char) → List Str → Except Error (List (Nat × Char))
  | _, acc, [] => .ok acc
  | i, acc, l :: rest =>
    match (splitChar '=' (trim l)).map trim with
    | [a, b] =>
      match from_str_radix 16 a with
      | .error e => .error (.Located filename (i + 1) (.ParseInt e))
      | .ok number =>
        charset_go filename (i + 1) (btreeInsert (number % 256) (b.headD '\x00') acc) rest
    | _ => .error (.Located filename (i + 1) .InvalidCharset)

/-- The charset reader. -/
def read_charset (fs : Fs) (filename : Str) : Except Error (List (Nat × Char)) :=
  match fs_lookup fs filename with
  | none => .error .Io
  | some lines => charset_go filename 0 [] lines

/-- Per-line loop of the dropbox-entry reader.  The first line sets the
declared count; each later line decrements it, failing when it is already
exhausted, and is split at the first space into a value and a label.  When
the split yields a single part, the value is still parsed from it first;
only after that does the access to the missing second part abort. -/
def dropbox_go (filename : Str) : Nat → Bool → Nat → List (Nat × Str) → List Str → RRes (List (Nat × Str))
  | _, _, _, acc, [] => .ok acc
  | i, is_first, left, acc, l :: rest =>
    let line := trim l
    if is_first then
      match parse_int line with
      | .error e => .err (.Located filename (i + 1) e)
      | .ok n => dropbox_go filename (i + 1) false n acc rest
    else if left = 0 then .err .TooManyComponentEntries
    else
      match splitn2 ' ' line with
      | [a] =>
        match parse_int a with
        | .error e => .err (.Located filename (i + 1) e)
        | .ok _ => .crash .indexOutOfBounds
      | a :: b :: _ =>
        match parse_int a with
        | .error e => .err (.Located filename (i + 1) e)
        | .ok num => dropbox_go filename (i + 1) false (left - 1) (acc ++ [(num, b)]) rest
      | [] => .crash .indexOutOfBounds

/-- The dropbox-entry reader: the empty list when no file is referenced. -/
def read_component_dropbox_entries (fs : Fs) : Option Str → RRes (List (Nat × Str))
  | none => .ok []
  | some filename =>
    match fs_lookup fs filename with
    | none => .err .Io
    | some lines => dropbox_go filename 0 true 0 [] lines

/-- The component builder: map the trimmed kind token to a component kind,
reading the dropbox-entry file for the two dropbox tokens. -/
def build_component (fs : Fs) (description : Str) (offset length : Nat) (kind_str : Str)
    (dropbox_entry_file : Option Str) : RRes Component :=
  let t := trim kind_str
  if t = "TEXT".data then .ok ⟨description, offset, length, .Text⟩
  else if t = "HEXA".data then .ok ⟨description, offset, length, .HexArray⟩
  else if t = "NEHU".data then .ok ⟨description, offset, length, .Number .Hex⟩
  else if t = "NEDU".data then .ok ⟨description, offset, length, .Number .Dec⟩
  else if t = "NEDS".data then .ok ⟨description, offset, length, .Number .DecSigned⟩
  else if t = "NDHU".data then
    match read_component_dropbox_entries fs dropbox_entry_file with
    | .ok entries => .ok ⟨description, offset, length, .Dropbox .Hex entries⟩
    | .err e => .err e
    | .crash k => .crash k
  else if t = "NDDU".data then
    match read_component_dropbox_entries fs dropbox_entry_file with
    | .ok entries => .ok ⟨description, offset, length, .Dropbox .Dec entries⟩
    | .err e => .err e
    | .crash k => .crash k
  else .err .InvalidComponentKind

/-- The states of the module-file state machine, in their fixed forward
order. -/
inductive ReadState where
  | ReadVersion
  | ReadDescription
  | ReadRootOffset
  | ReadEntryCount
  | ReadEntryLength
  | ReadEntryNames
  | ReadCharset
  | ReadNextComponentDescription
  | ReadComponentOffset
  | ReadComponentLength
  | ReadComponentKind
  | ReadComponentDropboxEntriesAndEnd
  deriving DecidableEq

/-- The mutable state of the module-parser loop: the module built so far, the
current machine state, and the pending component fields. -/
structure LoopSt where
  result : Module
  state : ReadState
  cdesc : Option Str
  coff : Nat
  clen : Nat
  ckind : Option Str
  deriving DecidableEq

/-- The loop state at entry of the parser. -/
def initSt : LoopSt :=
  { result := {}, state := .ReadVersion, cdesc := none, coff := 0, clen := 0, ckind := none }

/-- One iteration of the module-parser loop on one raw line: skip blank and
comment lines, otherwise dispatch on the current state exactly as the match
of the source does.  The final per-component state unwraps the two pending
options; an empty option there aborts abnormally. -/
def step (fs : Fs) (modname parent : Str) (i : Nat) (line_str : Str) (s : LoopSt) : RRes LoopSt :=
  let line := trim line_str
  if line.isEmpty then .ok s
  else if line.head? = some '#' then .ok s
  else
    match s.state with
    | .ReadVersion =>
      if line = "1".data then .ok { s with state := .ReadDescription }
      else .err .InvalidModuleVersion
    | .ReadDescription =>
      .ok { s with result.description := line_str, state := .ReadRootOffset }
    | .ReadRootOffset =>
      match parse_int line with
      | .error e => .err (.Located modname (i + 1) e)
      | .ok v => .ok { s with result.root_offset := v, state := .ReadEntryCount }
    | .ReadEntryCount =>
      match parse_int line with
      | .error e => .err (.Located modname (i + 1) e)
      | .ok v => .ok { s with result.entry_count := v, state := .ReadEntryLength }
    | .ReadEntryLength =>
      match parse_int line with
      | .error e => .err (.Located modname (i + 1) e)
      | .ok v => .ok { s with result.entry_length := v, state := .ReadEntryNames }
    | .ReadEntryNames =>
      match read_module_entries fs (get_full_filename parent line) with
      | .error e => .err e
      | .ok v => .ok { s with result.entry_names := v, state := .ReadCharset }
    | .ReadCharset =>
      match get_full_filename parent line with
      | some filename =>
        match read_charset fs filename with
        | .error e => .err e
        | .ok cs => .ok { s with result.charset := some cs, state := .ReadNextComponentDescription }
      | none => .ok { s with state := .ReadNextComponentDescription }
    | .ReadNextComponentDescription =>
      .ok { s with cdesc := some line_str, state := .ReadComponentOffset }
    | .ReadComponentOffset =>
      match parse_int line with
      | .error e => .err (.Located modname (i + 1) e)
      | .ok v => .ok { s with coff := v, state := .ReadComponentLength }
    | .ReadComponentLength =>
      match parse_int line with
      | .error e => .err (.Located modname (i + 1) e)
      | .ok v => .ok { s with clen := v, state := .ReadComponentKind }
    | .ReadComponentKind =>
      .ok { s with ckind := some line_str, state := .ReadComponentDropboxEntriesAndEnd }
    | .ReadComponentDropboxEntriesAndEnd =>
      match s.cdesc, s.ckind with
      | some d, some k =>
        match build_component fs d s.coff s.clen k (get_full_filename parent line) with
        | .err e => .err e
        | .crash c => .crash c
        | .ok comp =>
          .ok { s with result.components := s.result.components ++ [comp],
                       cdesc := none, ckind := none,
                       state := .ReadNextComponentDescription }
      | _, _ => .crash .unwrapNone

/-- Run the module-parser loop over the remaining lines. -/
def run_lines (fs : Fs) (modname parent : Str) : Nat → LoopSt → List Str → RRes LoopSt
  | _, s, [] => .ok s
  | i, s, l :: rest =>
    match step fs modname parent i l s with
    | .ok s' => run_lines fs modname parent (i + 1) s' rest
    | .err e => .err e
    | .crash k => .crash k

/-- The public entry point: open the module file, fold the loop over its
lines, and accept exactly when the machine ends ready to read the next
component description. -/
def from_file (fs : Fs) (filename : Str) : RRes Module :=
  match fs_lookup fs filename with
  | none => .err .Io
  | some lines =>
    match run_lines fs filename (path_parent filename) 0 initSt lines with
    | .ok s =>
      match s.state with
      | .ReadNextComponentDescription => .ok s.result
      | _ => .err .UnexpectedEof
    | .err e => .err e
    | .crash k => .crash k

/-- Parse one dropbox entry line: the value before the first space and the
label after it, when both are present and the value parses. -/
def parseEntry (l : Str) : Option (Nat × Str) :=
  match splitn2 ' ' (trim l) with
  | [a, b] =>
    match parse_int a with
    | .ok v => some (v, b)
    | .error _ => none
  | _ => none

/-- Shorthand for building a list of lines from string literals. -/
def mapData (ls : List String) : List Str := ls.map String.data

/-- The digit-accumulation loop keeps its accumulator below the 32-bit bound. -/
lemma radix_go_lt (radix : Nat) (pos : Bool) (s : Str) :
    ∀ acc v : Nat, acc < 2 ^ 32 → radix_go radix pos acc s = .ok v → v < 2 ^ 32 := by
  induction s with
  | nil =>
    intro acc v hacc h
    simp only [radix_go] at h
    cases h
    exact hacc
  | cons c rest ih =>
    intro acc v hacc h
    simp only [radix_go] at h
    split at h
    · exact absurd h (by simp)
    · split at h
      · split at h
        · exact ih _ v (by assumption) h
        · exact absurd h (by simp)
      · split at h
        · exact ih _ v hacc h
        · exact absurd h (by simp)

/-- Unsigned radix parsing only returns values below the 32-bit bound. -/
lemma from_str_radix_lt (radix : Nat) (s : Str) (v : Nat)
    (h : from_str_radix radix s = .ok v) : v < 2 ^ 32 := by
  have h32 : (0 : Nat) < 2 ^ 32 := by norm_num
  match s with
  | [] => exact absurd h (by simp [from_str_radix])
  | c :: rest =>
    simp only [from_str_radix] at h
    split at h
    · split at h
      · exact absurd h (by simp)
      · exact radix_go_lt radix true rest 0 v h32 h
    · split at h
      · split at h
        · exact absurd h (by simp)
        · exact radix_go_lt radix false rest 0 v h32 h
      · exact radix_go_lt radix true (c :: rest) 0 v h32 h

/-- A successful value of a mapped-error result comes from the original. -/
lemma mapError_ok {ε ε' α : Type} (f : ε → ε') (x : Except ε α) (v : α)
    (h : x.mapError f = .ok v) : x = .ok v := by
  cases x with
  | ok a => simpa [Except.mapError] using h
  | error e => exact absurd h (by simp [Except.mapError])

/-- Splitting a line that does not contain the separator yields that line as
its single part. -/
lemma splitChar_no_sep (sep : Char) (l : Str) (h : sep ∉ l) : splitChar sep l = [l] := by
  induction l with
  | nil => rfl
  | cons c rest ih =>
    have hc : ¬(c = sep) := fun hc => h (by simp [hc])
    have hr : sep ∉ rest := fun hr => h (List.mem_cons_of_mem _ hr)
    simp [splitChar, ih hr, hc]

/-- Two-way splitting of a line without the separator yields a single part. -/
lemma splitn2_no_sep (sep : Char) (l : Str) (h : sep ∉ l) : splitn2 sep l = [l] := by
  induction l with
  | nil => rfl
  | cons c rest ih =>
    have hc : ¬(c = sep) := fun hc => h (by simp [hc])
    have hr : sep ∉ rest := fun hr => h (List.mem_cons_of_mem _ hr)
    simp [splitn2, ih hr, hc]

/-- Two-way splitting yields one part or two parts, never more. -/
lemma splitn2_shape (sep : Char) (l : Str) :
    (∃ a, splitn2 sep l = [a]) ∨ ∃ a b, splitn2 sep l = [a, b] := by
  induction l with
  | nil => exact Or.inl ⟨[], rfl⟩
  | cons c rest ih =>
    by_cases hc : c = sep
    · exact Or.inr ⟨[], rest, by simp [splitn2, hc]⟩
    · rcases ih with ⟨a, ha⟩ | ⟨a, b, hab⟩
      · exact Or.inl ⟨c :: a, by simp [splitn2, hc, ha]⟩
      · exact Or.inr ⟨c :: a, b, by simp [splitn2, hc, hab]⟩

/-- Inversion of a successfully parsed dropbox entry line. -/
lemma parseEntry_isSome (l : Str) (h : (parseEntry l).isSome) :
    ∃ a b v, splitn2 ' ' (trim l) = [a, b] ∧ parse_int a = .ok v ∧
      parseEntry l = some (v, b) := by
  rcases splitn2_shape ' ' (trim l) with ⟨a, ha⟩ | ⟨a, b, hab⟩
  · exact absurd h (by simp [parseEntry, ha])
  · cases hp : parse_int a with
    | error e => exact absurd h (by simp [parseEntry, hab, hp])
    | ok v => exact ⟨a, b, v, hab, hp, by simp [parseEntry, hab, hp]⟩

/-- One iteration of the dropbox loop on a well-formed entry line with the
declared count not yet exhausted. -/
lemma dropbox_go_cons_good (fname : Str) (i left : Nat) (acc : List (Nat × Str)) (l : Str)
    (rest : List Str) (a b : Str) (v : Nat)
    (hl : ¬(left = 0)) (hsp : splitn2 ' ' (trim l) = [a, b]) (hp : parse_int a = .ok v) :
    dropbox_go fname i false left acc (l :: rest) =
      dropbox_go fname (i + 1) false (left - 1) (acc ++ [(v, b)]) rest := by
  simp [dropbox_go, hl, hsp, hp]

/-- The dropbox loop fails on the first line past the declared count. -/
lemma dropbox_go_over (fname : Str) (ls : List Str) :
    ∀ (i left : Nat) (acc : List (Nat × Str)),
    (∀ l ∈ ls.take left, (parseEntry l).isSome) → left < ls.length →
    dropbox_go fname i false left acc ls = .err .TooManyComponentEntries := by
  induction ls with
  | nil => intro i left acc _ h; simp at h
  | cons l rest ih =>
    intro i left acc hgood hlen
    match left with
    | 0 => simp [dropbox_go]
    | left' + 1 =>
      have hl : (parseEntry l).isSome := hgood l (by simp)
      obtain ⟨a, b, v, hsp, hp, _⟩ := parseEntry_isSome l hl
      rw [dropbox_go_cons_good fname i (left' + 1) acc l rest a b v (by omega) hsp hp]
      apply ih
      · intro x hx
        exact hgood x (by simpa using List.mem_cons_of_mem l hx)
      · simpa using Nat.lt_of_succ_lt_succ (by simpa using hlen)

/-- The dropbox loop consumes every remaining well-formed line when the
declared count covers them, producing the parsed pairs in order. -/
lemma dropbox_go_under (fname : Str) (ls : List Str) :
    ∀ (i left : Nat) (acc : List (Nat × Str)),
    (∀ l ∈ ls, (parseEntry l).isSome) → ls.length ≤ left →
    dropbox_go fname i false left acc ls = .ok (acc ++ ls.filterMap parseEntry) := by
  induction ls with
  | nil => intro i left acc _ _; simp [dropbox_go]
  | cons l rest ih =>
    intro i left acc hgood hlen
    match left with
    | 0 => simp at hlen
    | left' + 1 =>
      have hl : (parseEntry l).isSome := hgood l (by simp)
      obtain ⟨a, b, v, hsp, hp, hpe⟩ := parseEntry_isSome l hl
      rw [dropbox_go_cons_good fname i (left' + 1) acc l rest a b v (by omega) hsp hp]
      simp only [Nat.add_sub_cancel]
      rw [ih (i + 1) left' (acc ++ [(v, b)])
        (fun x hx => hgood x (List.mem_cons_of_mem l hx)) (by simpa using hlen)]
      simp [List.filterMap_cons, hpe]

/-- One iteration of the charset loop on a line that splits into exactly two
parts whose left part parses in base-16. -/
lemma charset_go_cons_two (fname : Str) (i : Nat) (acc : List (Nat × Char)) (l : Str)
    (rest : List Str) (a b : Str) (n : Nat)
    (hsp : (splitChar '=' (trim l)).map trim = [a, b]) (hp : from_str_radix 16 a = .ok n) :
    charset_go fname i acc (l :: rest) =
      charset_go fname (i + 1) (btreeInsert (n % 256) (b.headD '\x00') acc) rest := by
  simp [charset_go, hsp, hp]

/-- One iteration of the charset loop on a line that does not split into
exactly two parts. -/
lemma charset_go_cons_bad (fname : Str) (i : Nat) (acc : List (Nat × Char)) (l : Str)
    (rest : List Str) (hsp : ((splitChar '=' (trim l)).map trim).length ≠ 2) :
    charset_go fname i acc (l :: rest) = .error (.Located fname (i + 1) .InvalidCharset) := by
  rcases hsq : (splitChar '=' (trim l)).map trim with _ | ⟨a, _ | ⟨b, _ | ⟨c, r⟩⟩⟩
  · simp [charset_go, hsq]
  · simp [charset_go, hsq]
  · exact absurd (by simp [hsq]) hsp
  · simp [charset_go, hsq]

/-- The dropbox loop never aborts by unwrapping an empty option: its only
abnormal exit is the out-of-bounds access to a missing second part. -/
lemma dropbox_go_no_unwrap (fname : Str) (ls : List Str) :
    ∀ (i : Nat) (fb : Bool) (left : Nat) (acc : List (Nat × Str)),
    dropbox_go fname i fb left acc ls ≠ .crash .unwrapNone := by
  induction ls with
  | nil => intro i fb left acc h; simp [dropbox_go] at h
  | cons l rest ih =>
    intro i fb left acc h
    simp only [dropbox_go] at h
    split at h
    · split at h
      · simp at h
      · exact ih _ _ _ _ h
    · split at h
      · simp at h
      · split at h
        · split at h
          · simp at h
          · simp at h
        · split at h
          · simp at h
          · exact ih _ _ _ _ h
        · simp at h

/-- The dropbox reader never aborts by unwrapping an empty option. -/
lemma dropbox_entries_no_unwrap (fs : Fs) (o : Option Str) :
    read_component_dropbox_entries fs o ≠ .crash .unwrapNone := by
  match o with
  | none => simp [read_component_dropbox_entries]
  | some filename =>
    cases h : fs_lookup fs filename with
    | none => simp [read_component_dropbox_entries, h]
    | some lines =>
      simpa [read_component_dropbox_entries, h] using
        dropbox_go_no_unwrap filename lines 0 true 0 []

/-- The component builder never aborts by unwrapping an empty option. -/
lemma build_component_no_unwrap (fs : Fs) (d : Str) (o len : Nat) (k : Str) (f : Option Str) :
    build_component fs d o len k f ≠ .crash .unwrapNone := by
  intro h
  by_cases h1 : trim k = "TEXT".data
  · simp [build_component, h1] at h
  by_cases h2 : trim k = "HEXA".data
  · simp [build_component, h1, h2] at h
  by_cases h3 : trim k = "NEHU".data
  · simp [build_component, h1, h2, h3] at h
  by_cases h4 : trim k = "NEDU".data
  · simp [build_component, h1, h2, h3, h4] at h
  by_cases h5 : trim k = "NEDS".data
  · simp [build_component, h1, h2, h3, h4, h5] at h
  by_cases h6 : trim k = "NDHU".data
  · simp only [build_component, h1, h2, h3, h4, h5, h6, if_false, if_true] at h
    cases hr : read_component_dropbox_entries fs f with
    | ok es => rw [hr] at h; simp at h
    | err e => rw [hr] at h; simp at h
    | crash c =>
      rw [hr] at h
      simp at h
      rw [h] at hr
      exact dropbox_entries_no_unwrap fs f hr
  by_cases h7 : trim k = "NDDU".data
  · simp only [build_component, h1, h2, h3, h4, h5, h6, h7, if_false, if_true] at h
    cases hr : read_component_dropbox_entries fs f with
    | ok es => rw [hr] at h; simp at h
    | err e => rw [hr] at h; simp at h
    | crash c =>
      rw [hr] at h
      simp at h
      rw [h] at hr
      exact dropbox_entries_no_unwrap fs f hr
  · simp [build_component, h1, h2, h3, h4, h5, h6, h7] at h

/-- Loop invariant of the module parser: in the three middle per-component
states the pending description is set, and in the final per-component state
the pending kind token is set as well. -/
def Inv (s : LoopSt) : Prop :=
  match s.state with
  | .ReadComponentOffset => s.cdesc.isSome
  | .ReadComponentLength => s.cdesc.isSome
  | .ReadComponentKind => s.cdesc.isSome
  | .ReadComponentDropboxEntriesAndEnd => s.cdesc.isSome ∧ s.ckind.isSome
  | _ => True

/-- One loop iteration from an invariant state never aborts by unwrapping an
empty option, and re-establishes the invariant on success. -/
lemma step_inv (fs : Fs) (modname parent : Str) (i : Nat) (l : Str) (s : LoopSt)
    (hinv : Inv s) :
    step fs modname parent i l s ≠ .crash .unwrapNone ∧
    ∀ s', step fs modname parent i l s = .ok s' → Inv s' := by
  simp only [step]
  split
  · exact ⟨by simp, fun s' h => by cases h; exact hinv⟩
  split
  · exact ⟨by simp, fun s' h => by cases h; exact hinv⟩
  cases hst : s.state <;> dsimp only
  case ReadVersion =>
    split
    · exact ⟨by simp, fun s' h => by cases h; simp [Inv]⟩
    · exact ⟨by simp, fun s' h => by cases h⟩
  case ReadDescription =>
    exact ⟨by simp, fun s' h => by cases h; simp [Inv]⟩
  case ReadRootOffset =>
    cases parse_int (trim l) with
    | error e => exact ⟨by simp, fun s' h => by cases h⟩
    | ok v => exact ⟨by simp, fun s' h => by cases h; simp [Inv]⟩
  case ReadEntryCount =>
    cases parse_int (trim l) with
    | error e => exact ⟨by simp, fun s' h => by cases h⟩
    | ok v => exact ⟨by simp, fun s' h => by cases h; simp [Inv]⟩
  case ReadEntryLength =>
    cases parse_int (trim l) with
    | error e => exact ⟨by simp, fun s' h => by cases h⟩
    | ok v => exact ⟨by simp, fun s' h => by cases h; simp [Inv]⟩
  case ReadEntryNames =>
    cases read_module_entries fs (get_full_filename parent (trim l)) with
    | error e => exact ⟨by simp, fun s' h => by cases h⟩
    | ok v => exact ⟨by simp, fun s' h => by cases h; simp [Inv]⟩
  case ReadCharset =>
    cases hg : get_full_filename parent (trim l) with
    | none =>
      try rw [hg]
      dsimp only
      exact ⟨by simp, fun s' h => by cases h; simp [Inv]⟩
    | some filename =>
      try rw [hg]
      dsimp only
      cases hr : read_charset fs filename with
      | error e =>
        try rw [hr]
        dsimp only
        exact ⟨by simp, fun s' h => by cases h⟩
      | ok cs =>
        try rw [hr]
        dsimp only
        exact ⟨by simp, fun s' h => by cases h; simp [Inv]⟩
  case ReadNextComponentDescription =>
    exact ⟨by simp, fun s' h => by cases h; simp [Inv]⟩
  case ReadComponentOffset =>
    have hd : s.cdesc.isSome := by simpa [Inv, hst] using hinv
    cases parse_int (trim l) with
    | error e => exact ⟨by simp, fun s' h => by cases h⟩
    | ok v => exact ⟨by simp, fun s' h => by cases h; simpa [Inv] using hd⟩
  case ReadComponentLength =>
    have hd : s.cdesc.isSome := by simpa [Inv, hst] using hinv
    cases parse_int (trim l) with
    | error e => exact ⟨by simp, fun s' h => by cases h⟩
    | ok v => exact ⟨by simp, fun s' h => by cases h; simpa [Inv] using hd⟩
  case ReadComponentKind =>
    have hd : s.cdesc.isSome := by simpa [Inv, hst] using hinv
    exact ⟨by simp, fun s' h => by cases h; simp [Inv]; exact hd⟩
  case ReadComponentDropboxEntriesAndEnd =>
    have hd : s.cdesc.isSome ∧ s.ckind.isSome := by simpa [Inv, hst] using hinv
    obtain ⟨d, hdd⟩ := Option.isSome_iff_exists.mp hd.1
    obtain ⟨k, hkk⟩ := Option.isSome_iff_exists.mp hd.2
    rw [hdd, hkk]
    dsimp only
    cases hb : build_component fs d s.coff s.clen k (get_full_filename parent (trim l)) with
    | ok comp =>
      try rw [hb]
      dsimp only
      exact ⟨by simp, fun s' h => by cases h; simp [Inv]⟩
    | err e =>
      try rw [hb]
      dsimp only
      exact ⟨by simp, fun s' h => by cases h⟩
    | crash c =>
      try rw [hb]
      dsimp only
      refine ⟨fun h => ?_, fun s' h => by cases h⟩
      simp at h
      rw [h] at hb
      exact build_component_no_unwrap fs d s.coff s.clen k
        (get_full_filename parent (trim l)) hb

/-- The module-parser loop never aborts by unwrapping an empty option when
started in an invariant state. -/
lemma run_lines_no_unwrap (fs : Fs) (modname parent : Str) (ls : List Str) :
    ∀ (i : Nat) (s : LoopSt), Inv s →
    run_lines fs modname parent i s ls ≠ .crash .unwrapNone := by
  induction ls with
  | nil => intro i s _ h; simp [run_lines] at h
  | cons l rest ih =>
    intro i s hinv h
    simp only [run_lines] at h
    cases hstep : step fs modname parent i l s with
    | ok s' =>
      rw [hstep] at h
      exact ih (i + 1) s' ((step_inv fs modname parent i l s hinv).2 s' hstep) h
    | err e => rw [hstep] at h; simp at h
    | crash k =>
      rw [hstep] at h
      simp at h
      rw [h] at hstep
      exact (step_inv fs modname parent i l s hinv).1 hstep

/-- A module file with all seven header lines and no components. -/
def zeroComponentFs : Fs :=
  [("m".data, mapData ["1", "mod desc", "0x10", "42", "8", "NULL", "NULL"])]

/-- A module file whose single component uses the NULL sentinel for its
dropbox-entries file, with NULL also in both header sentinel positions. -/
def nullModuleFs : Fs :=
  [("m".data, mapData ["1", "md", "0", "0", "0", "NULL", "NULL", "comp", "0", "4", "NDDU", "NULL"])]

/-- A module file whose single component has an unrecognised kind token. -/
def badKindFs : Fs :=
  [("m".data, mapData ["1", "d", "0", "0", "0", "NULL", "NULL", "c", "0", "0", "ABCD", "NULL"])]

/-- A module file referencing a charset file whose second line is malformed. -/
def badCharsetModuleFs : Fs :=
  [("m".data, mapData ["1", "d", "0", "0", "0", "NULL", "cs"]),
   ("cs".data, mapData ["41=A", "bad"])]

/-- A dropbox-entries file declaring one entry but supplying two. -/
def tooManyFs : Fs := [("dbx".data, mapData ["1", "1 One", "2 Two"])]

/-- A dropbox-entries file declaring three entries but supplying two. -/
def underFs : Fs := [("db".data, mapData ["3", "1 One", "2 Two"])]

/-- A dropbox-entries file whose second line has no space and does not parse
as an integer literal. -/
def noSpaceBadIntFs : Fs := [("dbx2".data, mapData ["1", "xyz"])]

/-- A dropbox-entries file whose second line has no space but parses as an
integer literal. -/
def noSpaceIntFs : Fs := [("dbx3".data, mapData ["1", "123"])]

/-- A module file whose version line is not the literal 1. -/
def badVersionFs : Fs := [("m".data, mapData ["2"])]

/-- A module file whose root-offset line does not parse. -/
def badOffsetFs : Fs := [("m".data, mapData ["1", "d", "zz"])]

/-- A charset file with two lines for the same byte value. -/
def dupCharsetFs : Fs := [("cs".data, mapData ["41=A", "41=B"])]

/-- A charset file whose key has a leading zero. -/
def zeroPrefCharsetFs : Fs := [("cs".data, mapData ["041=A"])]

/-- A charset file with one plain line. -/
def plainCharsetFs : Fs := [("cs".data, mapData ["41=A"])]

/-- A charset file whose line has an empty right part. -/
def emptyRightCharsetFs : Fs := [("cs".data, mapData ["41="])]

/-- A charset file whose key value exceeds one byte. -/
def truncCharsetFs : Fs := [("cs".data, mapData ["1FF=Z"])]

/-- A charset file whose line splits into two parts but whose left part is
not a base-16 number. -/
def badHexCharsetFs : Fs := [("cs".data, mapData ["zz=a"])]

/-- Claim C1: the integer-literal parser follows the C-style radix rule: the
token 0 parses to 0; a token starting with 0x parses its remainder as
base-16 (0x1A gives 26); a token starting with 0 followed by anything else
parses the part after the leading 0 as base-8 (017 gives 15 and 08 fails
with a ParseInt-class error); any other token parses as base-10 (42 gives
42); and the result always fits in an unsigned 32-bit integer. -/
theorem parse_int_radix_rule :
    parse_int "0".data = .ok 0 ∧
    parse_int "0x1A".data = .ok 26 ∧
    parse_int "017".data = .ok 15 ∧
    parse_int "08".data = .error (.ParseInt .invalidDigit) ∧
    parse_int "42".data = .ok 42 ∧
    (∀ rest : Str, parse_int ('0' :: 'x' :: rest) = (from_str_radix 16 rest).mapError .ParseInt) ∧
    (∀ (c : Char) (rest : Str), ¬(c = 'x') →
      parse_int ('0' :: c :: rest) = (from_str_radix 8 (c :: rest)).mapError .ParseInt) ∧
    (∀ s : Str, ¬(s.head? = some '0') →
      parse_int s = (from_str_radix 10 s).mapError .ParseInt) ∧
    (∀ (s : Str) (v : Nat), parse_int s = .ok v → v < 2 ^ 32) := by
  refine ⟨by decide, by decide, by decide, by decide, by decide, ?_, ?_, ?_, ?_⟩
  · intro rest; rfl
  · intro c rest hc
    rw [parse_int.eq_def]
    split <;> simp_all
  · intro s hs
    rw [parse_int.eq_def]
    split <;> simp_all
  · intro s v h
    rw [parse_int.eq_def] at h
    split at h
    · cases h; norm_num
    · exact from_str_radix_lt 16 _ v (mapError_ok _ _ v h)
    · exact from_str_radix_lt 8 _ v (mapError_ok _ _ v h)
    · exact from_str_radix_lt 10 _ v (mapError_ok _ _ v h)

/-- Claim C1 witness: the radix-dispatch clauses of the rule evaluated at
concrete tokens. -/
theorem parse_int_radix_rule_witness :
    parse_int ('0' :: 'x' :: "2F".data) = (from_str_radix 16 "2F".data).mapError .ParseInt ∧
    parse_int ('0' :: '1' :: "7".data) = (from_str_radix 8 ('1' :: "7".data)).mapError .ParseInt ∧
    parse_int "42".data = (from_str_radix 10 "42".data).mapError .ParseInt ∧
    26 < 2 ^ 32 :=
  ⟨parse_int_radix_rule.2.2.2.2.2.1 "2F".data,
   parse_int_radix_rule.2.2.2.2.2.2.1 '1' "7".data (by decide),
   parse_int_radix_rule.2.2.2.2.2.2.2.1 "42".data (by decide),
   parse_int_radix_rule.2.2.2.2.2.2.2.2 "0x1A".data 26 (by decide)⟩

/-- Claim C10: in every reachable state of the module-parser loop, the final
per-component state has both the pending component description and the
pending kind string set, so the two take-unwrap calls used to assemble the
component never abort: no run of the parser ends in an unwrap-on-empty
abort. -/
theorem take_unwrap_never_crashes (fs : Fs) (filename : Str) :
    from_file fs filename ≠ .crash .unwrapNone := by
  intro h
  simp only [from_file] at h
  cases hf : fs_lookup fs filename with
  | none =>
    try rw [hf] at h
    simp at h
  | some lines =>
    try rw [hf] at h
    dsimp only at h
    cases hr : run_lines fs filename (path_parent filename) 0 initSt lines with
    | ok s =>
      try rw [hr] at h
      dsimp only at h
      cases hst : s.state <;> (try rw [hst] at h) <;> simp at h
    | err e =>
      try rw [hr] at h
      simp at h
    | crash k =>
      try rw [hr] at h
      dsimp only at h
      simp at h
      rw [h] at hr
      exact run_lines_no_unwrap fs filename (path_parent filename) lines 0 initSt trivial hr

/-- Claim C2: parsing succeeds at end of input exactly when the state machine
is at the boundary ready to read the next component description, having
consumed the seven header lines and zero or more complete component records;
end of input in any other state fails with UnexpectedEof; and a module file
with all header lines but zero components is valid. -/
theorem from_file_eof_rule :
    (∀ (fs : Fs) (filename : Str) (lines : List Str) (s : LoopSt),
      fs_lookup fs filename = some lines →
      run_lines fs filename (path_parent filename) 0 initSt lines = .ok s →
      (s.state = .ReadNextComponentDescription → from_file fs filename = .ok s.result) ∧
      (¬(s.state = .ReadNextComponentDescription) →
        from_file fs filename = .err .UnexpectedEof)) ∧
    (∀ (fs : Fs) (filename : Str) (m : Module),
      from_file fs filename = .ok m →
      ∃ (lines : List Str) (s : LoopSt),
        fs_lookup fs filename = some lines ∧
        run_lines fs filename (path_parent filename) 0 initSt lines = .ok s ∧
        s.state = .ReadNextComponentDescription ∧ s.result = m) ∧
    from_file zeroComponentFs "m".data =
      .ok { description := "mod desc".data, root_offset := 16, entry_count := 42,
            entry_length := 8 } := by
  refine ⟨?_, ?_, by decide⟩
  · intro fs filename lines s hlk hrun
    constructor
    · intro hst
      simp only [from_file, hlk]
      rw [hrun]
      dsimp only
      rw [hst]
    · intro hst
      simp only [from_file, hlk]
      rw [hrun]
      dsimp only
      cases hst2 : s.state <;> simp_all
  · intro fs filename m h
    simp only [from_file] at h
    cases hlk : fs_lookup fs filename with
    | none =>
      try rw [hlk] at h
      simp at h
    | some lines =>
      try rw [hlk] at h
      dsimp only at h
      cases hrun : run_lines fs filename (path_parent filename) 0 initSt lines with
      | ok s =>
        try rw [hrun] at h
        dsimp only at h
        cases hst : s.state <;> (try rw [hst] at h) <;> simp at h
        exact ⟨lines, s, by simp [hlk], hrun, hst, h⟩
      | err e =>
        try rw [hrun] at h
        simp at h
      | crash k =>
        try rw [hrun] at h
        simp at h

/-- Claim C2 witness: the success direction of the rule evaluated on the
concrete zero-component module file. -/
theorem from_file_eof_rule_witness :
    from_file zeroComponentFs "m".data =
      .ok ({ result := { description := "mod desc".data, root_offset := 16, entry_count := 42,
                         entry_length := 8 },
             state := .ReadNextComponentDescription, cdesc := none, coff := 0, clen := 0,
             ckind := none : LoopSt }).result :=
  (from_file_eof_rule.1 zeroComponentFs ("m".data)
      (mapData ["1", "mod desc", "0x10", "42", "8", "NULL", "NULL"])
      { result := { description := "mod desc".data, root_offset := 16, entry_count := 42,
                    entry_length := 8 },
        state := .ReadNextComponentDescription, cdesc := none, coff := 0, clen := 0,
        ckind := none }
      (by decide) (by decide)).1 (by decide)

/-- Claim C3: for a dropbox-entries file whose first line declares count n,
strictly more entry lines than n fail with TooManyComponentEntries at the
first excess line (the lines past the first excess line are never examined),
while at most n well-formed entry lines succeed and produce the parsed
value-label pairs in file order. -/
theorem dropbox_declared_count_rule (fs : Fs) (fname countLine : Str)
    (entryLines : List Str) (n : Nat)
    (hlk : fs_lookup fs fname = some (countLine :: entryLines))
    (hn : parse_int (trim countLine) = .ok n) :
    ((∀ l ∈ entryLines.take n, (parseEntry l).isSome) → n < entryLines.length →
      read_component_dropbox_entries fs (some fname) = .err .TooManyComponentEntries) ∧
    ((∀ l ∈ entryLines, (parseEntry l).isSome) → entryLines.length ≤ n →
      read_component_dropbox_entries fs (some fname) =
        .ok (entryLines.filterMap parseEntry)) := by
  have hstart : read_component_dropbox_entries fs (some fname) =
      dropbox_go fname 1 false n [] entryLines := by
    simp only [read_component_dropbox_entries, hlk]
    try dsimp only
    simp [dropbox_go, hn]
  constructor
  · intro hgood hlen
    rw [hstart]
    exact dropbox_go_over fname entryLines 1 n [] hgood hlen
  · intro hgood hlen
    rw [hstart]
    simpa using dropbox_go_under fname entryLines 1 n [] hgood hlen

/-- Claim C3 witness: both directions of the count rule on concrete dropbox
files. -/
theorem dropbox_declared_count_rule_witness :
    read_component_dropbox_entries underFs (some "db".data) =
      .ok [(1, "One".data), (2, "Two".data)] ∧
    read_component_dropbox_entries tooManyFs (some "dbx".data) =
      .err .TooManyComponentEntries := by
  constructor
  · have h := (dropbox_declared_count_rule underFs ("db".data) ("3".data)
      (mapData ["1 One", "2 Two"]) 3 (by decide) (by decide)).2 (by decide) (by decide)
    rw [h]
    decide
  · exact (dropbox_declared_count_rule tooManyFs ("dbx".data) ("1".data)
      (mapData ["1 One", "2 Two"]) 1 (by decide) (by decide)).1 (by decide) (by decide)

/-- A list known to be nonempty has a false emptiness test. -/
lemma isEmpty_false_of_ne {l : Str} (h : ¬(l = [])) : l.isEmpty = false := by
  cases l with
  | nil => exact absurd rfl h
  | cons c rest => rfl

/-- A significant version line that is not the literal 1 stops the machine
with an unwrapped InvalidModuleVersion. -/
lemma step_version_bad (fs : Fs) (modname parent : Str) (i : Nat) (v : Str) (s : LoopSt)
    (hs : s.state = .ReadVersion) (h1 : ¬(trim v = []))
    (h2 : ¬((trim v).head? = some '#')) (h3 : ¬(trim v = "1".data)) :
    step fs modname parent i v s = .err .InvalidModuleVersion := by
  have h1' := isEmpty_false_of_ne h1
  simp [step, hs, h1', h2, h3]

/-- A significant root-offset line that fails the integer-literal grammar
produces an error located at the module file and the 1-based line number. -/
lemma step_offset_err (fs : Fs) (modname parent : Str) (i : Nat) (tok : Str) (s : LoopSt)
    (hs : s.state = .ReadRootOffset) (h1 : ¬(trim tok = []))
    (h2 : ¬((trim tok).head? = some '#')) (e : Error)
    (hp : parse_int (trim tok) = .error e) :
    step fs modname parent i tok s = .err (.Located modname (i + 1) e) := by
  have h1' := isEmpty_false_of_ne h1
  simp [step, hs, h1', h2, hp]

/-- Claim C4 counterexample: an invalid component kind token surfaces from
the public entry point as a bare InvalidComponentKind, not wrapped in a
Located error, refuting the claim that InvalidModuleVersion is the single
unwrapped exception. -/
theorem located_wrapping_counterexample :
    from_file badKindFs "m".data = .err .InvalidComponentKind := by decide

/-- Claim C4 amended: errors raised while parsing the content of a specific
line are wrapped in a Located error carrying the originating file path and
1-based line number (a failing numeric line of the module file carries the
module path and line; a malformed charset line surfaces from the public
entry point carrying the charset path and line), but the exceptions are
InvalidModuleVersion, InvalidComponentKind and TooManyComponentEntries,
which all surface unwrapped. -/
theorem located_wrapping_amended :
    (∀ (fs : Fs) (name v : Str) (rest : List Str),
      fs_lookup fs name = some (v :: rest) →
      ¬(trim v = []) → ¬((trim v).head? = some '#') → ¬(trim v = "1".data) →
      from_file fs name = .err .InvalidModuleVersion) ∧
    (∀ (fs : Fs) (name tok : Str) (rest : List Str) (e : Error),
      fs_lookup fs name = some ("1".data :: "d".data :: tok :: rest) →
      ¬(trim tok = []) → ¬((trim tok).head? = some '#') →
      parse_int (trim tok) = .error e →
      from_file fs name = .err (.Located name 3 e)) ∧
    from_file badCharsetModuleFs "m".data = .err (.Located "cs".data 2 .InvalidCharset) ∧
    from_file badKindFs "m".data = .err .InvalidComponentKind ∧
    read_component_dropbox_entries tooManyFs (some "dbx".data) =
      .err .TooManyComponentEntries := by
  refine ⟨?_, ?_, by decide, by decide, by decide⟩
  · intro fs name v rest hlk h1 h2 h3
    have hrun : run_lines fs name (path_parent name) 0 initSt (v :: rest) =
        .err .InvalidModuleVersion := by
      simp only [run_lines]
      rw [step_version_bad fs name (path_parent name) 0 v initSt rfl h1 h2 h3]
    simp only [from_file, hlk, hrun]
  · intro fs name tok rest e hlk h1 h2 hp
    have s1 : step fs name (path_parent name) 0 ("1".data) initSt =
        .ok { result := {}, state := .ReadDescription, cdesc := none, coff := 0, clen := 0,
              ckind := none } := rfl
    have s2 : step fs name (path_parent name) 1 ("d".data)
        { result := {}, state := .ReadDescription, cdesc := none, coff := 0, clen := 0,
          ckind := none } =
        .ok { result := { description := "d".data }, state := .ReadRootOffset, cdesc := none,
              coff := 0, clen := 0, ckind := none } := rfl
    have s3 : step fs name (path_parent name) 2 tok
        { result := { description := "d".data }, state := .ReadRootOffset, cdesc := none,
          coff := 0, clen := 0, ckind := none } = .err (.Located name 3 e) :=
      step_offset_err fs name (path_parent name) 2 tok _ rfl h1 h2 e hp
    have hrun : run_lines fs name (path_parent name) 0 initSt
        ("1".data :: "d".data :: tok :: rest) = .err (.Located name 3 e) := by
      simp only [run_lines, s1, s2, s3]
    simp only [from_file, hlk, hrun]

/-- Claim C4 amended witness: the unwrapped version error and the located
numeric-line error on concrete module files. -/
theorem located_wrapping_amended_witness :
    from_file badVersionFs "m".data = .err .InvalidModuleVersion ∧
    from_file badOffsetFs "m".data = .err (.Located "m".data 3 (.ParseInt .invalidDigit)) :=
  ⟨located_wrapping_amended.1 badVersionFs ("m".data) ("2".data) [] (by decide) (by decide)
      (by decide) (by decide),
   located_wrapping_amended.2.1 badOffsetFs ("m".data) ("zz".data) [] (.ParseInt .invalidDigit)
      (by decide) (by decide) (by decide) (by decide)⟩

/-- Claim C5 counterexample: a charset line that does split into exactly two
parts is not necessarily accepted: the line zz=a fails with a located
ParseInt-class error because its left part is not a base-16 number. -/
theorem charset_two_part_counterexample :
    read_charset badHexCharsetFs "cs".data =
      .error (.Located "cs".data 1 (.ParseInt .invalidDigit)) := by decide

/-- Claim C5 amended: each charset line is split on every equals sign with
both parts trimmed and exactly two parts are required: a line that does not
yield exactly two parts (for example one with no equals sign at all, or one
like 3D== whose right side contains a further equals sign) fails with an
InvalidCharset error wrapped with the charset file name and 1-based line
number; a line with exactly two parts passes this structural check, though
it can still fail with a located ParseInt-class error when its left part is
not a valid base-16 number. -/
theorem charset_two_part_amended :
    (∀ (fname : Str) (i : Nat) (acc : List (Nat × Char)) (l : Str) (rest : List Str),
      ¬(((splitChar '=' (trim l)).map trim).length = 2) →
      charset_go fname i acc (l :: rest) = .error (.Located fname (i + 1) .InvalidCharset)) ∧
    (∀ l : Str, '=' ∉ trim l → ¬(((splitChar '=' (trim l)).map trim).length = 2)) ∧
    ¬(((splitChar '=' (trim "3D==".data)).map trim).length = 2) ∧
    (∀ (fname : Str) (i : Nat) (acc : List (Nat × Char)) (l : Str) (rest : List Str)
       (a b : Str),
      (splitChar '=' (trim l)).map trim = [a, b] →
      charset_go fname i acc (l :: rest) =
        match from_str_radix 16 a with
        | .error e => .error (.Located fname (i + 1) (.ParseInt e))
        | .ok number =>
          charset_go fname (i + 1) (btreeInsert (number % 256) (b.headD '\x00') acc) rest) := by
  refine ⟨charset_go_cons_bad, ?_, by decide, ?_⟩
  · intro l h
    rw [splitChar_no_sep '=' (trim l) h]
    simp
  · intro fname i acc l rest a b hsp
    simp only [charset_go, hsp]

/-- Claim C5 amended witness: the structural failure on the concrete line
3D== at line one of a charset file. -/
theorem charset_two_part_amended_witness :
    charset_go "cs".data 0 [] ["3D==".data] =
      .error (.Located "cs".data 1 .InvalidCharset) :=
  charset_two_part_amended.1 "cs".data 0 [] ("3D==".data) [] (by decide)

/-- Claim C6: the charset reader parses each line's left part as base-16
regardless of a leading zero (041=A maps byte 65, while the integer-literal
grammar would read 041 as octal 33), maps the byte to the first character of
the right part, maps an empty right part to the null character without
error, and a later line for the same byte key overwrites the earlier one, so
41=A followed by 41=B leaves byte 65 mapped to B. -/
theorem charset_semantics_rule :
    read_charset plainCharsetFs "cs".data = .ok [(65, 'A')] ∧
    read_charset zeroPrefCharsetFs "cs".data = .ok [(65, 'A')] ∧
    parse_int "041".data = .ok 33 ∧
    read_charset emptyRightCharsetFs "cs".data = .ok [(65, '\x00')] ∧
    read_charset dupCharsetFs "cs".data = .ok [(65, 'B')] ∧
    (∀ (fname : Str) (i : Nat) (acc : List (Nat × Char)) (l : Str) (rest : List Str)
       (a b : Str) (n : Nat),
      (splitChar '=' (trim l)).map trim = [a, b] →
      from_str_radix 16 a = .ok n →
      charset_go fname i acc (l :: rest) =
        charset_go fname (i + 1) (btreeInsert (n % 256) (b.headD '\x00') acc) rest) :=
  ⟨by decide, by decide, by decide, by decide, by decide, charset_go_cons_two⟩

/-- Claim C6 witness: one step of the charset loop on the concrete line
41=A. -/
theorem charset_semantics_rule_witness :
    charset_go "cs".data 0 [] ["41=A".data] =
      charset_go "cs".data 1 (btreeInsert 65 'A' []) [] :=
  charset_semantics_rule.2.2.2.2.2 "cs".data 0 [] ("41=A".data) [] ("41".data) ("A".data) 65
    (by decide) (by decide)

/-- Claim C7: the literal filename NULL in any of the three sentinel
positions opens no file: the resolver yields no path, entry names resolve to
none, a dropbox entry list resolves to the empty list, and a module file
whose three sentinel positions are all NULL parses with absent entry names,
absent charset and an empty dropbox entry list over a filesystem holding no
auxiliary file at all. -/
theorem null_sentinel_rule :
    (∀ parent : Str, get_full_filename parent "NULL".data = none) ∧
    (∀ fs : Fs, read_module_entries fs none = .ok none) ∧
    (∀ fs : Fs, read_component_dropbox_entries fs none = .ok []) ∧
    from_file nullModuleFs "m".data =
      .ok { description := "md".data, entry_names := none, charset := none,
            components := [⟨"comp".data, 0, 4, .Dropbox .Dec []⟩] } :=
  ⟨fun parent => rfl, fun fs => rfl, fun fs => rfl, by decide⟩

/-- Claim C8 counterexample: a dropbox-entries file whose unexhausted
non-header line has no space does not abort abnormally when the line fails
integer parsing; the reader returns a located structured error through the
normal result channel instead. -/
theorem dropbox_no_space_counterexample :
    read_component_dropbox_entries noSpaceBadIntFs (some "dbx2".data) =
      .err (.Located "dbx2".data 2 (.ParseInt .invalidDigit)) ∧
    ¬(read_component_dropbox_entries noSpaceBadIntFs (some "dbx2".data) =
      .crash .indexOutOfBounds) :=
  ⟨by decide, by decide⟩

/-- Claim C8 amended: for a non-header line with no space while the declared
count is not exhausted, the two-way split yields a single part; the reader
first parses that whole part as the entry value, and only when that parse
succeeds does the access to the missing second part abort with an
index-out-of-range failure surfaced directly rather than through the
structured result channel; when the parse fails, a located ParseInt-class
structured error is returned instead. -/
theorem dropbox_no_space_amended :
    (∀ (fname : Str) (i left : Nat) (acc : List (Nat × Str)) (l : Str) (rest : List Str)
       (v : Nat),
      ¬(left = 0) → ' ' ∉ trim l → parse_int (trim l) = .ok v →
      dropbox_go fname i false left acc (l :: rest) = .crash .indexOutOfBounds) ∧
    (∀ (fname : Str) (i left : Nat) (acc : List (Nat × Str)) (l : Str) (rest : List Str)
       (e : Error),
      ¬(left = 0) → ' ' ∉ trim l → parse_int (trim l) = .error e →
      dropbox_go fname i false left acc (l :: rest) = .err (.Located fname (i + 1) e)) ∧
    read_component_dropbox_entries noSpaceIntFs (some "dbx3".data) =
      .crash .indexOutOfBounds := by
  refine ⟨?_, ?_, by decide⟩
  · intro fname i left acc l rest v hl hns hp
    have hs := splitn2_no_sep ' ' (trim l) hns
    simp [dropbox_go, hl, hs, hp]
  · intro fname i left acc l rest e hl hns hp
    have hs := splitn2_no_sep ' ' (trim l) hns
    simp [dropbox_go, hl, hs, hp]

/-- Claim C8 amended witness: the abort on the concrete no-space line 123
and the structured error on the concrete no-space line xyz. -/
theorem dropbox_no_space_amended_witness :
    dropbox_go "dbx3".data 1 false 1 [] ["123".data] = .crash .indexOutOfBounds ∧
    dropbox_go "dbx2".data 1 false 1 [] ["xyz".data] =
      .err (.Located "dbx2".data 2 (.ParseInt .invalidDigit)) :=
  ⟨dropbox_no_space_amended.1 "dbx3".data 1 1 [] ("123".data) [] 123 (by decide) (by decide)
      (by decide),
   dropbox_no_space_amended.2.1 "dbx2".data 1 1 [] ("xyz".data) [] (.ParseInt .invalidDigit)
      (by decide) (by decide) (by decide)⟩

/-- Claim C9: a charset line whose left part is a valid base-16 number above
255 raises no error: the parsed 32-bit value is truncated modulo 256 by the
byte cast, and the mapping entry is stored under the truncated key, so 1FF
(value 511) is stored under key 255. -/
theorem charset_key_truncation_rule :
    (∀ (fname : Str) (i : Nat) (acc : List (Nat × Char)) (l : Str) (rest : List Str)
       (a b : Str) (n : Nat),
      (splitChar '=' (trim l)).map trim = [a, b] →
      from_str_radix 16 a = .ok n →
      charset_go fname i acc (l :: rest) =
        charset_go fname (i + 1) (btreeInsert (n % 256) (b.headD '\x00') acc) rest) ∧
    from_str_radix 16 "1FF".data = .ok 511 ∧
    read_charset truncCharsetFs "cs".data = .ok [(255, 'Z')] :=
  ⟨charset_go_cons_two, by decide, by decide⟩

/-- Claim C9 witness: the truncation step on the concrete line 1FF=Z. -/
theorem charset_key_truncation_rule_witness :
    charset_go "cs".data 0 [] ["1FF=Z".data] =
      charset_go "cs".data 1 (btreeInsert (511 % 256) 'Z' []) [] :=
  charset_key_truncation_rule.1 "cs".data 0 [] ("1FF=Z".data) [] ("1FF".data) ("Z".data) 511
    (by decide) (by decide)

end Nightmare
